import Mathlib

/-!
Shallow embedding of the `gopager` keyset-pagination library (Go) in Lean 4.

Conventions of the embedding:

* Go `string`-backed enum types (`Direction`, `Operator`) are embedded as
  `String` abbreviations with the same constants and predicates, because the
  Go code stores arbitrary strings in them (e.g. a JSON-decoded operator is
  any string until `Valid()` is checked).
* Go `int` is embedded as `Int` (overflow of 64-bit ints is outside the
  value ranges exercised here).
* Functions that can panic in Go (`Direction.ForOperator`,
  `Operator.ForOrdering`, `TrimResultSet`) return `Option`, with `none`
  standing for the panic.
* Fallible functions return `Except` with an inductive error type whose
  constructors mirror the distinct `fmt.Errorf` sites of the source.
* The Go standard-library base64 (`encoding/base64`, RawURLEncoding) layer
  is a bijection between byte strings and their base64 text; tokens are
  therefore embedded as `Option String` / `Option Json`: `none` is the empty
  string token, `some payload` is the base64 encoding of `payload`.  The
  decimal text layer of the pseudo cursor (`strconv.Itoa`/`strconv.Atoi`)
  and the JSON value layer of the keyset cursor (`encoding/json`) are
  embedded faithfully.
-/

/-- Direction of sorting (Go: `type Direction string`). -/
abbrev Direction := String

def DirectionASC : Direction := "ASC"

def DirectionDESC : Direction := "DESC"

/-- Go: `func (o Direction) Valid() bool`. -/
def Direction.Valid (o : Direction) : Bool :=
  o = DirectionASC || o = DirectionDESC

/-- Comparison operator used in cursor elements (Go: `type Operator string`). -/
abbrev Operator := String

def OperatorGT : Operator := ">"

def OperatorLT : Operator := "<"

/-- Private equality operator, used only while building the DNF filter. -/
def operatorEq : Operator := "="

/-- Go: `func (o Operator) Valid() bool`. -/
def Operator.Valid (o : Operator) : Bool :=
  o = OperatorLT || o = OperatorGT

/-- Go: `func (o Operator) ForOrdering() Direction`; the `default:` branch
panics, embedded as `none`. -/
def Operator.ForOrdering (o : Operator) : Option Direction :=
  if o = OperatorGT then some DirectionASC
  else if o = OperatorLT then some DirectionDESC
  else none

/-- Go: `func (o Direction) ForOperator() Operator`; the `default:` branch
panics, embedded as `none`. -/
def Direction.ForOperator (o : Direction) : Option Operator :=
  if o = DirectionASC then some OperatorGT
  else if o = DirectionDESC then some OperatorLT
  else none

/-- One sorting entry (Go: `type OrderBy struct { Column string; Direction Direction }`). -/
structure OrderBy where
  Column : String
  Direction : Direction
deriving DecidableEq, Repr

/-- Go: `type Orderings []OrderBy`. -/
abbrev Orderings := List OrderBy

/-- Character set allowed in column names
(Go: `_availableColumnNameSymbols = append([]rune("_"), lo.AlphanumericCharset...)`,
where `lo.AlphanumericCharset` is the runes a-z, A-Z and 0-9). -/
def allowedColumnChar (c : Char) : Bool :=
  c = '_' || (('a' ≤ c && c ≤ 'z') || ('A' ≤ c && c ≤ 'Z') || ('0' ≤ c && c ≤ '9'))

/-- Validation errors of the ordering model, one constructor per
`fmt.Errorf` site in `ordering.go`. -/
inductive OrderingError where
  | emptyOrdering : OrderingError
  | invalidDirection (d : Direction) : OrderingError
  | forbiddenColumnCharacters (column : String) : OrderingError
deriving DecidableEq, Repr

/-- Go: `func (o OrderBy) validate() error`. -/
def OrderBy.validate (o : OrderBy) : Except OrderingError Unit :=
  if ¬o.Direction.Valid then .error (.invalidDirection o.Direction)
  else if ¬o.Column.data.all allowedColumnChar then
    .error (.forbiddenColumnCharacters o.Column)
  else .ok ()

/-- Go: `func (o Orderings) validate() error` — empty list is an error,
otherwise the first failing element's error is returned. -/
def Orderings.validate (o : Orderings) : Except OrderingError Unit :=
  if o.isEmpty then .error .emptyOrdering
  else go o
where
  go : List OrderBy → Except OrderingError Unit
  | [] => .ok ()
  | ob :: rest =>
    match ob.validate with
    | .error e => .error e
    | .ok _ => go rest

/-- Go constants from `limits.go`. -/
def NoLimit : Int := -1

def MaxLimit : Int := 100

def DefaultLimit : Int := 10

/-- Go: `func IsNormalizedLimitMax(limit int, maxLimit int) (int, bool)`. -/
def IsNormalizedLimitMax (limit maxLimit : Int) : Int × Bool :=
  if limit ≤ 0 then (DefaultLimit, false)
  else if limit > maxLimit then (maxLimit, false)
  else (limit, true)

/-- Go: `func NormalizeLimitMax(limit int, maxLimit int) int`. -/
def NormalizeLimitMax (limit maxLimit : Int) : Int :=
  (IsNormalizedLimitMax limit maxLimit).1

/-- Go: `func NormalizeLimit(limit int) int`. -/
def NormalizeLimit (limit : Int) : Int :=
  NormalizeLimitMax limit MaxLimit

/-- Go: `type CursorPager[CursorType Cursor] struct`; the embedding fixes a
non-nil pager value (the nil-receiver states of the builder methods are not
needed by the verified claims). -/
structure CursorPager (κ : Type) where
  lookahead : Bool
  limit : Int
  cursor : κ
  sort : Orderings

/-- Go: `func IsLastPage[...](initialPager *CursorPager[...], resultSet []T) bool`. -/
def IsLastPage {κ : Type} {T : Type} (initialPager : CursorPager κ) (resultSet : List T) : Bool :=
  ((resultSet.length : Int) < initialPager.limit) ||
    (initialPager.lookahead && ((resultSet.length : Int) ≤ initialPager.limit))

/-- Go: `func TrimResultSet[...](initialPager *CursorPager[...], resultSet []T) []T`.
When lookahead is enabled the Go code evaluates `resultSet[:len(resultSet)-1]`,
which panics with an out-of-range slice when the slice is empty; the panic is
embedded as `none`. -/
def TrimResultSet {κ : Type} {T : Type} (initialPager : CursorPager κ) (resultSet : List T) :
    Option (List T) :=
  if initialPager.lookahead then
    if resultSet.isEmpty then none else some resultSet.dropLast
  else some resultSet

/-- Dynamic (`any`-typed) Go values that occur as cursor element values:
the value domains named by the design notes (null, bool, number, string),
with the Go dynamic types `int` and `float64` kept distinct because Go
interface equality distinguishes them.  `vNum` carries the `float64` that
`encoding/json` produces for every JSON number; its payload is embedded as
an exact rational (all values exercised here are exactly representable). -/
inductive GoValue where
  | vNull : GoValue
  | vBool (b : Bool) : GoValue
  | vInt (n : Int) : GoValue
  | vNum (q : ℚ) : GoValue
  | vStr (s : String) : GoValue
deriving DecidableEq, Repr

/-- JSON value trees (the `encoding/json` data model). -/
inductive Json where
  | null : Json
  | bool (b : Bool) : Json
  | num (q : ℚ) : Json
  | str (s : String) : Json
  | arr (elems : List Json) : Json
  | obj (fields : List (String × Json)) : Json

/-- `json.Marshal` on a dynamic Go value: both `int` and `float64` marshal
to a JSON number, strings to JSON strings, and so on. -/
def GoValue.toJson : GoValue → Json
  | .vNull => .null
  | .vBool b => .bool b
  | .vInt n => .num (n : ℚ)
  | .vNum q => .num q
  | .vStr s => .str s

/-- `json.Unmarshal` into a Go `any`: every JSON number becomes a `float64`
(composite values do not occur as element values in this development and
are mapped to `vNull`, which never arises from `GoValue.toJson` output of
the scalar domain). -/
def Json.toGoValue : Json → GoValue
  | .null => .vNull
  | .bool b => .vBool b
  | .num q => .vNum q
  | .str s => .vStr s
  | .arr _ => .vNull
  | .obj _ => .vNull

/-- One keyset cursor condition
(Go: `type CursorElement struct { Column string; Value any; Operator Operator }`
with JSON tags `c`, `v`, `o`). -/
structure CursorElement where
  Column : String
  Value : GoValue
  Operator : Operator
deriving DecidableEq, Repr

/-- One conjunct of the DNF filter (Go: `type tConjunct struct`). -/
structure tConjunct where
  Column : String
  Value : GoValue
  Operator : Operator
deriving DecidableEq, Repr

/-- Go: `type tDisjunct []tConjunct`. -/
abbrev tDisjunct := List tConjunct

/-- Go: `type tDNF []tDisjunct`. -/
abbrev tDNF := List tDisjunct

/-- Go conversion `tConjunct(element)` (identical field layout). -/
def CursorElement.toConjunct (c : CursorElement) : tConjunct :=
  { Column := c.Column, Value := c.Value, Operator := c.Operator }

/-- Go: `func (c *CursorElement) toConjunctWithEqualityCondition() tConjunct`. -/
def CursorElement.toConjunctWithEqualityCondition (c : CursorElement) : tConjunct :=
  { Column := c.Column, Value := c.Value, Operator := operatorEq }

/-- Go: `type DefaultCursor struct { elements []CursorElement }` (keyset cursor). -/
structure DefaultCursor where
  elements : List CursorElement
deriving DecidableEq, Repr

/-- Go: `func (c *DefaultCursor) IsEmpty() bool` (the nil-pointer case is
subsumed by the empty element list). -/
def DefaultCursor.IsEmpty (c : DefaultCursor) : Bool :=
  c.elements.isEmpty

/-- Go: `func (c *DefaultCursor) toDNF() tDNF` — for each element index `i`
the disjunct is the equality conjuncts of `elements[:i]` followed by the
conjunct of `elements[i]` itself. -/
def DefaultCursor.toDNF (c : DefaultCursor) : tDNF :=
  if c.IsEmpty then []
  else c.elements.enum.map (fun (p : Nat × CursorElement) =>
    ((c.elements.take p.1).map CursorElement.toConjunctWithEqualityCondition)
      ++ [p.2.toConjunct])

/-- Validation errors of `DefaultCursor.validate`, one constructor per
`fmt.Errorf` site of `impl_default_cursor.go`. -/
inductive CursorError where
  | columnCountMismatch : CursorError
  | unexpectedCursorColumn (column : String) : CursorError
  | invalidCursorOperator (op : Operator) : CursorError
  | unexpectedCursorOperator (op : Operator) : CursorError
deriving DecidableEq, Repr

/-- Loop body of `DefaultCursor.validate`: the Go loop walks the element
list with index `i` and reads `orderings[i]`; it only runs after the length
equality check, so the two lists are walked in lockstep (the impossible
leftover cases return `ok`, mirroring that they are unreachable). -/
def validateElements : List CursorElement → List OrderBy → Except CursorError Unit
  | [], _ => .ok ()
  | _ :: _, [] => .ok ()
  | cond :: restC, orderBy :: restO =>
    if cond.Column ≠ orderBy.Column then .error (.unexpectedCursorColumn cond.Column)
    else if ¬cond.Operator.Valid then .error (.invalidCursorOperator cond.Operator)
    else if cond.Operator.ForOrdering ≠ some orderBy.Direction then
      .error (.unexpectedCursorOperator cond.Operator)
    else validateElements restC restO

/-- Go: `func (c *DefaultCursor) validate(orderings Orderings) error`. -/
def DefaultCursor.validate (c : DefaultCursor) (orderings : Orderings) :
    Except CursorError Unit :=
  if c.IsEmpty then .ok ()
  else if c.elements.length ≠ orderings.length then .error .columnCountMismatch
  else validateElements c.elements orderings

/-- `json.Marshal` of one `CursorElement`: an object with the tagged fields
`c`, `v`, `o` in struct order. -/
def CursorElement.marshal (e : CursorElement) : Json :=
  .obj [("c", .str e.Column), ("v", e.Value.toJson), ("o", .str e.Operator)]

/-- Field lookup of `json.Unmarshal` into a struct: first match by key,
a missing key leaves the field at its zero value (`null` stands in for
"absent" and yields the zero value downstream). -/
def jsonField (fields : List (String × Json)) (key : String) : Json :=
  match fields.find? (fun f => f.1 = key) with
  | some f => f.2
  | none => .null

/-- `json.Unmarshal` of a JSON string into a Go `string` field: a missing
field (null) keeps the zero value `""`, a non-string JSON value is a type
error (`none`). -/
def jsonToGoString : Json → Option String
  | .str s => some s
  | .null => some ""
  | _ => none

/-- `json.Unmarshal` of one array entry into a `CursorElement`:
must be a JSON object; `c` and `o` must be strings (the `Operator` field is
string-backed, so any string is accepted); `v` is decoded into `any`. -/
def unmarshalElement : Json → Option CursorElement
  | .obj fields => do
    let column ← jsonToGoString (jsonField fields "c")
    let op ← jsonToGoString (jsonField fields "o")
    pure { Column := column, Value := (jsonField fields "v").toGoValue, Operator := op }
  | _ => none

/-- Go: `func (c *DefaultCursor) String() string` — the empty element list
serializes to `""` (the `none` token); otherwise the token is the base64 of
the compact JSON array of the marshaled elements (the base64/text layer is
a bijection, so the token carries the JSON tree directly). -/
def DefaultCursor.string (c : DefaultCursor) : Option Json :=
  if c.elements.isEmpty then none
  else some (.arr (c.elements.map CursorElement.marshal))

/-- Decode error of `DecodeCursor` (the base64-failure branch lives in the
abstracted text layer; the JSON-unmarshal failure branch is kept). -/
inductive DecodeCursorError where
  | unmarshalFailed : DecodeCursorError
deriving DecidableEq, Repr

/-- `json.Unmarshal` of a JSON array into `[]CursorElement`: elementwise,
failing on the first element that does not decode. -/
def unmarshalElements : List Json → Option (List CursorElement)
  | [] => some []
  | j :: rest =>
    match unmarshalElement j, unmarshalElements rest with
    | some e, some es => some (e :: es)
    | _, _ => none

/-- Go: `func DecodeCursor(b64String string) (*DefaultCursor, error)` —
empty input decodes to a nil cursor; otherwise the payload must
JSON-unmarshal into a `[]CursorElement`. -/
def DecodeCursor : Option Json → Except DecodeCursorError (Option DefaultCursor)
  | none => .ok none
  | some j =>
    match j with
    | .arr entries =>
      match unmarshalElements entries with
      | some elems => .ok (some { elements := elems })
      | none => .error .unmarshalFailed
    | _ => .error .unmarshalFailed

/-- Go `json.Unmarshal ∘ json.Marshal` on a dynamic value: an `int` comes
back as a `float64` carrying the same number; every other scalar comes back
unchanged. -/
def GoValue.jsonReencoded : GoValue → GoValue
  | .vInt n => .vNum (n : ℚ)
  | v => v

/-- A dynamic value whose Go type survives a JSON round trip unchanged
(everything except `int`, which comes back as `float64`). -/
def GoValue.jsonStable : GoValue → Bool
  | .vInt _ => false
  | _ => true

/-- Go: `type PseudoCursor struct { offset int }` (offset cursor). -/
structure PseudoCursor where
  offset : Int
deriving DecidableEq, Repr

/-- Go: `func (p *PseudoCursor) GetOffset() int` — nil-safe accessor with
the nil pointer embedded as `none`. -/
def getOffset : Option PseudoCursor → Int
  | some p => p.offset
  | none => 0

/-- Go: `func (p *PseudoCursor) IsEmpty() bool`. -/
def PseudoCursor.IsEmpty : Option PseudoCursor → Bool
  | some p => p.offset = 0
  | none => true

/-- Decimal digit to its ASCII character. -/
def digitChar : Nat → Char
  | 0 => '0' | 1 => '1' | 2 => '2' | 3 => '3' | 4 => '4'
  | 5 => '5' | 6 => '6' | 7 => '7' | 8 => '8' | _ => '9'

/-- ASCII character to decimal digit, `none` when not a digit. -/
def digitVal (c : Char) : Option Nat :=
  if 48 ≤ c.toNat ∧ c.toNat ≤ 57 then some (c.toNat - 48) else none

/-- Little-endian decimal digit expansion by structural recursion on a fuel
bound, so that concrete tokens evaluate by kernel reduction; it agrees with
`Nat.digits 10` (see `natDigits_eq_digits`). -/
def natDigitsAux : Nat → Nat → List Nat
  | 0, _ => []
  | _ + 1, 0 => []
  | fuel + 1, n + 1 => ((n + 1) % 10) :: natDigitsAux fuel ((n + 1) / 10)

def natDigits (n : Nat) : List Nat :=
  natDigitsAux n n

/-- Decimal text of a natural number (most significant digit first),
via the little-endian digit expansion. -/
def natDecimalChars (n : Nat) : List Char :=
  ((natDigits n).map digitChar).reverse

/-- Go: `strconv.Itoa` on a natural number. -/
def itoaNat (n : Nat) : String :=
  if n = 0 then "0" else ⟨natDecimalChars n⟩

/-- Go: `strconv.Itoa` (decimal text of an `int`). -/
def itoa (i : Int) : String :=
  if i < 0 then ⟨'-' :: (itoaNat i.natAbs).data⟩ else itoaNat i.toNat

/-- Read every character as a decimal digit, failing on the first
non-digit. -/
def parseDigits : List Char → Option (List Nat)
  | [] => some []
  | c :: rest =>
    match digitVal c, parseDigits rest with
    | some d, some ds => some (d :: ds)
    | _, _ => none

/-- Parse a non-empty all-digit character list as a natural number. -/
def parseNatChars (l : List Char) : Option Nat :=
  if l.isEmpty then none
  else (parseDigits l).map (fun ds => Nat.ofDigits 10 ds.reverse)

/-- Go: `strconv.Atoi` on the character list — an optional sign followed by
at least one decimal digit (the int64 overflow error is outside the
embedded value range). -/
def atoiChars : List Char → Option Int
  | [] => none
  | c :: rest =>
    if c = '-' then (parseNatChars rest).map (fun (n : Nat) => -(n : Int))
    else if c = '+' then (parseNatChars rest).map (fun (n : Nat) => (n : Int))
    else (parseNatChars (c :: rest)).map (fun (n : Nat) => (n : Int))

/-- Go: `strconv.Atoi`. -/
def atoi (s : String) : Option Int :=
  atoiChars s.data

/-- Go: `func (p *PseudoCursor) String() string` — offset `0` (or a nil
cursor) serializes to `""` (the `none` token); otherwise the token is the
base64 of the decimal text of the offset (base64 layer abstracted as a
bijection, so the token carries the decimal text directly). -/
def PseudoCursor.string (p : PseudoCursor) : Option String :=
  if p.offset = 0 then none else some (itoa p.offset)

/-- Decode error of `DecodePseudoCursor` (the base64-failure branch lives
in the abstracted text layer; the `strconv.Atoi` failure branch is kept). -/
inductive DecodePseudoError where
  | offsetParseFailed : DecodePseudoError
deriving DecidableEq, Repr

/-- Go: `func DecodePseudoCursor(b64String string) (*PseudoCursor, error)` —
empty input decodes to a nil cursor; otherwise the payload must parse as a
decimal integer, which becomes the offset unchecked. -/
def DecodePseudoCursor : Option String → Except DecodePseudoError (Option PseudoCursor)
  | none => .ok none
  | some payload =>
    match atoi payload with
    | some offset => .ok (some { offset := offset })
    | none => .error .offsetParseFailed

/-- Go: `type ColumnMapping = map[ColumnAlias]string`, embedded as an
association list with unique keys; `lookupColumn` is the Go map read
`columnMapping[alias]`, which yields the zero value `""` for absent keys. -/
abbrev ColumnMapping := List (String × String)

def lookupColumn (columnMapping : ColumnMapping) (alias0 : String) : String :=
  match columnMapping.find? (fun f => f.1 = alias0) with
  | some f => f.2
  | none => ""

/-- Errors of `ParseSort`, one constructor per `fmt.Errorf` site (the
"closest alias" hint computed by `closestAlias`/`levenshtein` only decorates
the error message and is not part of the embedded error identity). -/
inductive ParseSortError where
  | malformedOrderingString (s : String) : ParseSortError
  | unknownColumnAlias (alias0 : String) : ParseSortError
deriving DecidableEq, Repr

/-- Whitespace characters of Go `strings.TrimSpace` (the ASCII subset of
`unicode.IsSpace`; non-ASCII space classes do not occur in sort strings). -/
def isSpaceChar (c : Char) : Bool :=
  c = ' ' || c = '\t' || c = '\n' || c = '\r'

/-- Go: `strings.TrimSpace`. -/
def goTrimSpace (s : String) : String :=
  ⟨((s.data.dropWhile isSpaceChar).reverse.dropWhile isSpaceChar).reverse⟩

/-- Go: `strings.Split(s, " ")` — split around every single space character,
keeping empty fields. -/
def goSplitSpaceAux : List Char → List Char → List String
  | [], acc => [⟨acc.reverse⟩]
  | c :: rest, acc =>
    if c = ' ' then ⟨acc.reverse⟩ :: goSplitSpaceAux rest []
    else goSplitSpaceAux rest (c :: acc)

def goSplitSpace (s : String) : List String :=
  goSplitSpaceAux s.data []

/-- Go: `strings.ToUpper` on one character (ASCII letters; sort strings are
restricted to ASCII by the column character set). -/
def goUpperChar (c : Char) : Char :=
  if 'a' ≤ c ∧ c ≤ 'z' then Char.ofNat (c.toNat - 32) else c

/-- Go: `strings.ToUpper`. -/
def goToUpper (s : String) : String :=
  ⟨s.data.map goUpperChar⟩

/-- Go: `func ParseSort(stringsOrderings []string, columnMapping ColumnMapping) (Orderings, error)` —
each raw string is trimmed and split on single spaces into exactly two
tokens; the second token is uppercased into the direction without any
validity check; the first token must map to a non-empty column name. -/
def ParseSort (stringsOrderings : List String) (columnMapping : ColumnMapping) :
    Except ParseSortError Orderings :=
  match stringsOrderings with
  | [] => .ok []
  | stringOrdering :: rest =>
    let cutStringOrdering := goSplitSpace (goTrimSpace stringOrdering)
    if cutStringOrdering.length ≠ 2 then
      .error (.malformedOrderingString stringOrdering)
    else
      let columnAlias := cutStringOrdering.headD ""
      let direction : Direction := goToUpper (cutStringOrdering.getD 1 "")
      let columnName := lookupColumn columnMapping columnAlias
      if columnName = "" then .error (.unknownColumnAlias columnAlias)
      else
        match ParseSort rest columnMapping with
        | .error e => .error e
        | .ok tail => .ok ({ Column := columnName, Direction := direction } :: tail)

/-- Errors of `CursorPager.validate` for the pseudo-cursor pager
(`PseudoCursor.validate` never fails, so only the lookahead/unlimited check
and the ordering validation can fail; the nil-pager error does not arise
for the embedded non-nil pager value). -/
inductive PagerError where
  | lookaheadWithoutLimit : PagerError
  | orderingFailed (e : OrderingError) : PagerError
deriving DecidableEq, Repr

/-- Go: `func (c *CursorPager[_]) validate() error` instantiated at
`CursorType = *PseudoCursor`. -/
def pseudoPagerValidate (c : CursorPager (Option PseudoCursor)) : Except PagerError Unit :=
  if c.limit = NoLimit ∧ c.lookahead = true then .error .lookaheadWithoutLimit
  else
    match c.sort.validate with
    | .error e => .error (.orderingFailed e)
    | .ok _ => .ok ()

/-- Go: `func NextPagePseudoCursor[T any](initialPager *CursorPager[*PseudoCursor], resultSet []T) ([]T, *PseudoCursor, error)`.
The outer `Option` embeds the potential panic of `TrimResultSet`. -/
def NextPagePseudoCursor {T : Type} (initialPager : CursorPager (Option PseudoCursor))
    (resultSet : List T) :
    Option (Except PagerError (List T × Option PseudoCursor)) :=
  match pseudoPagerValidate initialPager with
  | .error e => some (.error e)
  | .ok _ =>
    if IsLastPage initialPager resultSet then some (.ok (resultSet, none))
    else
      match TrimResultSet initialPager resultSet with
      | none => none
      | some trimmed =>
        some (.ok (trimmed,
          some { offset := getOffset initialPager.cursor + (trimmed.length : Int) }))

/-! ### Theorems -/

/-- C1: for every keyset cursor with a non-empty element list, `toDNF`
produces exactly one disjunct per element, and the `i`-th disjunct (0-based)
is the equality conjuncts of the first `i` elements, in order, followed by
one conjunct carrying the `i`-th element's original operator. -/
theorem toDNF_shape (c : DefaultCursor) (h : c.elements ≠ []) :
    c.toDNF.length = c.elements.length ∧
    ∀ i, (hi : i < c.elements.length) →
      c.toDNF[i]? = some
        (((c.elements.take i).map CursorElement.toConjunctWithEqualityCondition)
          ++ [(c.elements.get ⟨i, hi⟩).toConjunct]) := by
  have hne : c.IsEmpty = false := by
    simp [DefaultCursor.IsEmpty, List.isEmpty_iff, h]
  constructor
  · simp [DefaultCursor.toDNF, hne]
  · intro i hi
    simp [DefaultCursor.toDNF, hne, List.getElem?_map, List.getElem?_enum,
      List.getElem?_eq_getElem hi, List.get_eq_getElem]

/-- Witness for C1 at a concrete two-element cursor. -/
theorem toDNF_shape_witness :
    (DefaultCursor.mk [⟨"a", .vInt 1, ">"⟩, ⟨"b", .vStr "x", "<"⟩]).toDNF.length = 2 ∧
    (DefaultCursor.mk [⟨"a", .vInt 1, ">"⟩, ⟨"b", .vStr "x", "<"⟩]).toDNF[1]? =
      some [⟨"a", .vInt 1, "="⟩, ⟨"b", .vStr "x", "<"⟩] := by
  have h := toDNF_shape (DefaultCursor.mk [⟨"a", .vInt 1, ">"⟩, ⟨"b", .vStr "x", "<"⟩])
    (by decide)
  refine ⟨h.1, ?_⟩
  have h2 := h.2 1 (by decide)
  simpa [CursorElement.toConjunctWithEqualityCondition, CursorElement.toConjunct,
    operatorEq] using h2

/-- C2: `IsLastPage` is true exactly when fewer rows than the limit were
returned, or lookahead is enabled and at most `limit` rows were returned. -/
theorem IsLastPage_iff {κ T : Type} (p : CursorPager κ) (rs : List T) :
    IsLastPage p rs = true ↔
      ((rs.length : Int) < p.limit ∨
        (p.lookahead = true ∧ (rs.length : Int) ≤ p.limit)) := by
  simp [IsLastPage, Bool.or_eq_true, Bool.and_eq_true, decide_eq_true_eq]

/-- C7: the limit normalizer substitutes the default for non-positive
requests, clamps to the maximum above it, keeps the value otherwise, and
its boolean is true exactly when the returned value is the request itself. -/
theorem IsNormalizedLimitMax_spec (limit maxLimit : Int) :
    (limit ≤ 0 → IsNormalizedLimitMax limit maxLimit = (DefaultLimit, false)) ∧
    (0 < limit → maxLimit < limit → IsNormalizedLimitMax limit maxLimit = (maxLimit, false)) ∧
    (0 < limit → limit ≤ maxLimit → IsNormalizedLimitMax limit maxLimit = (limit, true)) ∧
    ((IsNormalizedLimitMax limit maxLimit).2 = true ↔
      (IsNormalizedLimitMax limit maxLimit).1 = limit) := by
  refine ⟨?_, ?_, ?_, ?_⟩ <;>
    · unfold IsNormalizedLimitMax DefaultLimit
      split_ifs <;> simp_all <;> omega

/-- Witness for C7: a request within bounds is kept and flagged unmodified. -/
theorem IsNormalizedLimitMax_spec_witness :
    IsNormalizedLimitMax 7 50 = (7, true) := by
  exact (IsNormalizedLimitMax_spec 7 50).2.2.1 (by decide) (by decide)

/-- C10: `TrimResultSet` drops the last row when lookahead is enabled and
the slice is non-empty, returns the slice unchanged without lookahead, and
panics (embedded `none`) on an empty slice with lookahead enabled. -/
theorem TrimResultSet_spec {κ T : Type} (p : CursorPager κ) (rs : List T) :
    (p.lookahead = true → rs ≠ [] → TrimResultSet p rs = some rs.dropLast) ∧
    (p.lookahead = false → TrimResultSet p rs = some rs) ∧
    (p.lookahead = true → rs = [] → TrimResultSet p rs = none) := by
  unfold TrimResultSet
  refine ⟨?_, ?_, ?_⟩ <;> intro h <;> simp_all [List.isEmpty_iff]

/-- Witness for C10 at a concrete lookahead pager. -/
theorem TrimResultSet_spec_witness :
    TrimResultSet (κ := Unit) (T := Int)
      { lookahead := true, limit := 2, cursor := (), sort := [] } [1, 2, 3] = some [1, 2] ∧
    TrimResultSet (κ := Unit) (T := Int)
      { lookahead := true, limit := 2, cursor := (), sort := [] } [] = none := by
  constructor
  · exact (TrimResultSet_spec { lookahead := true, limit := 2, cursor := (), sort := [] }
      [1, 2, 3]).1 rfl (by decide)
  · exact (TrimResultSet_spec (T := Int)
      { lookahead := true, limit := 2, cursor := (), sort := [] } []).2.2 rfl rfl

/-- The fuel-based digit expansion agrees with `Nat.digits 10`. -/
theorem natDigitsAux_eq_digits (fuel n : Nat) (h : n ≤ fuel) :
    natDigitsAux fuel n = Nat.digits 10 n := by
  induction fuel generalizing n with
  | zero =>
    have hn : n = 0 := by omega
    subst hn
    simp [natDigitsAux]
  | succ f ih =>
    cases n with
    | zero => simp [natDigitsAux]
    | succ m =>
      rw [natDigitsAux, Nat.digits_def' (by norm_num : (1 : ℕ) < 10) (Nat.succ_pos m)]
      have hdiv : (m + 1) / 10 ≤ f := by
        have := Nat.div_lt_self (Nat.succ_pos m) (by norm_num : 1 < 10)
        omega
      rw [ih _ hdiv]

theorem natDigits_eq_digits (n : Nat) : natDigits n = Nat.digits 10 n :=
  natDigitsAux_eq_digits n n le_rfl

theorem digitVal_digitChar (d : Nat) (h : d < 10) : digitVal (digitChar d) = some d := by
  interval_cases d <;> rfl

theorem parseDigits_map_digitChar (l : List Nat) (hl : ∀ d ∈ l, d < 10) :
    parseDigits (l.map digitChar) = some l := by
  induction l with
  | nil => rfl
  | cons d rest ih =>
    have hd : digitVal (digitChar d) = some d := digitVal_digitChar d (hl d (by simp))
    have hr : parseDigits (rest.map digitChar) = some rest :=
      ih (fun x hx => hl x (by simp [hx]))
    simp [parseDigits, hd, hr]

theorem parseNatChars_natDecimalChars (n : Nat) (h : n ≠ 0) :
    parseNatChars (natDecimalChars n) = some n := by
  have hne : natDigits n ≠ [] := by
    rw [natDigits_eq_digits]
    exact Nat.digits_ne_nil_iff_ne_zero.mpr h
  have hlt : ∀ d ∈ (natDigits n).reverse, d < 10 := by
    intro d hd
    rw [natDigits_eq_digits] at hd
    exact Nat.digits_lt_base (by norm_num) (List.mem_reverse.mp hd)
  have hrw : natDecimalChars n = ((natDigits n).reverse).map digitChar := by
    rw [natDecimalChars, List.map_reverse]
  rw [hrw, parseNatChars]
  rw [if_neg (by simp [List.isEmpty_iff, hne])]
  rw [parseDigits_map_digitChar _ hlt]
  simp only [Option.map_some', List.reverse_reverse, Option.some.injEq]
  rw [natDigits_eq_digits]
  exact Nat.ofDigits_digits 10 n

theorem natDecimalChars_head_not_sign (m : Nat) (hm : m ≠ 0) :
    ∃ c cs, natDecimalChars m = c :: cs ∧ c ≠ '-' ∧ c ≠ '+' := by
  have hne : natDecimalChars m ≠ [] := by
    rw [natDecimalChars]
    simp only [ne_eq, List.reverse_eq_nil_iff, List.map_eq_nil_iff]
    rw [natDigits_eq_digits]
    exact Nat.digits_ne_nil_iff_ne_zero.mpr hm
  obtain ⟨c, cs, hcons⟩ := List.exists_cons_of_ne_nil hne
  have hcmem : c ∈ natDecimalChars m := by rw [hcons]; simp
  rw [natDecimalChars, List.mem_reverse] at hcmem
  obtain ⟨d, hd, hdc⟩ := List.mem_map.mp hcmem
  have hd10 : d < 10 := by
    rw [natDigits_eq_digits] at hd
    exact Nat.digits_lt_base (by norm_num) hd
  subst hdc
  exact ⟨_, cs, hcons, by interval_cases d <;> decide, by interval_cases d <;> decide⟩

/-- `strconv.Atoi` inverts `strconv.Itoa` on every integer. -/
theorem atoi_itoa (i : Int) : atoi (itoa i) = some i := by
  by_cases hneg : i < 0
  · have hna : i.natAbs ≠ 0 := by omega
    rw [itoa, if_pos hneg, itoaNat, if_neg hna]
    show atoiChars ('-' :: natDecimalChars i.natAbs) = some i
    rw [atoiChars, if_pos rfl, parseNatChars_natDecimalChars _ hna]
    simp only [Option.map_some', Option.some.injEq]
    omega
  · rw [itoa, if_neg hneg]
    by_cases h0 : i.toNat = 0
    · have hi0 : i = 0 := by omega
      subst hi0
      rfl
    · rw [itoaNat, if_neg h0]
      obtain ⟨c, cs, hcons, hcm, hcp⟩ := natDecimalChars_head_not_sign i.toNat h0
      show atoiChars (natDecimalChars i.toNat) = some i
      rw [hcons, atoiChars, if_neg hcm, if_neg hcp, ← hcons,
        parseNatChars_natDecimalChars _ h0]
      simp only [Option.map_some', Option.some.injEq]
      omega

/-- C4: an offset cursor with positive offset round-trips through
serialization and decoding; offset `0` serializes to the empty token, and
the empty token decodes to the nil cursor, whose observed offset is `0`. -/
theorem pseudoCursor_roundtrip (n : Int) (h : 0 < n) :
    DecodePseudoCursor (PseudoCursor.string { offset := n }) = .ok (some { offset := n }) ∧
    PseudoCursor.string { offset := 0 } = none ∧
    DecodePseudoCursor none = .ok none ∧
    getOffset none = 0 := by
  refine ⟨?_, by rw [PseudoCursor.string]; simp, rfl, rfl⟩
  rw [PseudoCursor.string]
  rw [if_neg (show ¬(({ offset := n } : PseudoCursor).offset = 0) by simp; omega)]
  simp [DecodePseudoCursor, atoi_itoa]

/-- Witness for C4 at offset 15. -/
theorem pseudoCursor_roundtrip_witness :
    DecodePseudoCursor (PseudoCursor.string { offset := 15 }) = .ok (some { offset := 15 }) :=
  (pseudoCursor_roundtrip 15 (by norm_num)).1

/-- C9 (amended): `DecodePseudoCursor` performs no sign check — decoding a
token that encodes the decimal text of any integer `n` yields exactly
offset `n`, negative values included. -/
theorem decodePseudoCursor_exact (n : Int) :
    DecodePseudoCursor (some (itoa n)) = .ok (some { offset := n }) := by
  simp [DecodePseudoCursor, atoi_itoa]

/-- Counterexample to C9 as stated: the token wrapping the decimal text
`-5` (a well-formed base64 payload) decodes successfully to a cursor whose
offset is negative. -/
theorem decodePseudoCursor_negative_offset :
    DecodePseudoCursor (some "-5") = .ok (some { offset := -5 }) ∧
    getOffset (some { offset := -5 }) < 0 := by
  exact ⟨rfl, by norm_num [getOffset]⟩

/-- The element-versus-ordering loop of `DefaultCursor.validate` succeeds
exactly when every aligned position matches in column, has a valid
operator, and the operator maps to the ordering's direction. -/
theorem validateElements_ok_iff (es : List CursorElement) (os : List OrderBy) :
    validateElements es os = .ok () ↔
      ∀ i, (hi : i < es.length) → (ho : i < os.length) →
        (es[i].Column = os[i].Column ∧
         es[i].Operator.Valid = true ∧
         es[i].Operator.ForOrdering = some os[i].Direction) := by
  induction es generalizing os with
  | nil =>
    constructor
    · intro _ i hi _
      simp at hi
    · intro _
      rfl
  | cons e es ih =>
    cases os with
    | nil =>
      constructor
      · intro _ i _ ho
        simp at ho
      · intro _
        rfl
    | cons o os =>
      constructor
      · intro h
        rw [validateElements] at h
        by_cases h1 : e.Column ≠ o.Column
        · rw [if_pos h1] at h
          simp at h
        rw [if_neg h1] at h
        by_cases h2 : ¬e.Operator.Valid
        · rw [if_pos h2] at h
          simp at h
        rw [if_neg h2] at h
        by_cases h3 : e.Operator.ForOrdering ≠ some o.Direction
        · rw [if_pos h3] at h
          simp at h
        rw [if_neg h3] at h
        intro i hi ho
        cases i with
        | zero =>
          push_neg at h1 h3
          simp only [List.getElem_cons_zero]
          refine ⟨h1, ?_, h3⟩
          simpa using h2
        | succ n =>
          have hn : n < es.length := by simpa using Nat.lt_of_succ_lt_succ hi
          have hno : n < os.length := by simpa using Nat.lt_of_succ_lt_succ ho
          simpa using (ih os).mp h n hn hno
      · intro hall
        have h0 := hall 0 (by simp) (by simp)
        simp only [List.getElem_cons_zero] at h0
        rw [validateElements]
        rw [if_neg (by simp [h0.1]), if_neg (by simp [h0.2.1]), if_neg (by simp [h0.2.2])]
        refine (ih os).mpr ?_
        intro i hi ho
        simpa using hall (i + 1) (by simpa using Nat.succ_lt_succ hi)
          (by simpa using Nat.succ_lt_succ ho)

/-- C5: `DefaultCursor.validate` succeeds exactly for the empty cursor, or
when the element count equals the ordering count and every position agrees
in column, operator validity, and operator-to-direction mapping. -/
theorem DefaultCursor_validate_iff (c : DefaultCursor) (orderings : Orderings) :
    c.validate orderings = .ok () ↔
      (c.elements = [] ∨
        (c.elements.length = orderings.length ∧
          ∀ i, (hi : i < c.elements.length) → (ho : i < orderings.length) →
            (c.elements[i].Column = orderings[i].Column ∧
             c.elements[i].Operator.Valid = true ∧
             c.elements[i].Operator.ForOrdering = some orderings[i].Direction))) := by
  rw [DefaultCursor.validate]
  by_cases hemp : c.elements = []
  · rw [if_pos (by simp [DefaultCursor.IsEmpty, hemp])]
    simp [hemp]
  · rw [if_neg (by simp [DefaultCursor.IsEmpty, List.isEmpty_iff, hemp])]
    by_cases hlen : c.elements.length = orderings.length
    · rw [if_neg (by omega)]
      rw [validateElements_ok_iff]
      simp [hemp, hlen]
    · rw [if_pos hlen]
      simp [hemp, hlen]

/-- Witness for C5: a concrete one-element cursor validates against its
matching ordering. -/
theorem DefaultCursor_validate_iff_witness :
    DefaultCursor.validate { elements := [{ Column := "id", Value := .vInt 1, Operator := ">" }] }
      [{ Column := "id", Direction := "ASC" }] = .ok () := by
  apply (DefaultCursor_validate_iff _ _).mpr
  refine Or.inr ⟨rfl, ?_⟩
  intro i hi ho
  have hz : i = 0 := by
    simp only [List.length_singleton] at hi
    omega
  subst hz
  exact ⟨rfl, rfl, rfl⟩

/-- C6: on a valid pseudo-cursor pager (with a non-negative limit whenever
lookahead is enabled, as every pager built through the API has),
`NextPagePseudoCursor` returns the rows unchanged with no cursor on a last
page, and otherwise the trimmed rows together with a cursor whose offset is
the previous offset plus the number of rows left after trimming. -/
theorem NextPagePseudoCursor_spec {T : Type} (p : CursorPager (Option PseudoCursor))
    (rs : List T) (hv : pseudoPagerValidate p = .ok ())
    (hla : p.lookahead = true → 0 ≤ p.limit) :
    NextPagePseudoCursor p rs =
      (if IsLastPage p rs then some (.ok (rs, none))
       else
         some (.ok ((if p.lookahead then rs.dropLast else rs),
           some { offset := getOffset p.cursor +
             (((if p.lookahead then rs.dropLast else rs) : List T).length : Int) }))) := by
  unfold NextPagePseudoCursor
  rw [hv]
  by_cases hlast : IsLastPage p rs = true
  · simp [hlast]
  · have hlast' : IsLastPage p rs = false := by simpa using hlast
    cases hbool : p.lookahead with
    | false => simp [hlast', TrimResultSet, hbool]
    | true =>
      have hlimit : 0 ≤ p.limit := hla hbool
      have hne : rs.isEmpty = false := by
        rcases rs with _ | ⟨a, rest⟩
        · exfalso
          rw [IsLastPage, hbool] at hlast'
          simp only [List.length_nil, Nat.cast_zero, Bool.true_and,
            Bool.or_eq_false_iff, decide_eq_false_iff_not, not_lt, not_le] at hlast'
          omega
        · rfl
      simp [hlast', TrimResultSet, hbool, hne]

/-- Witness for C6, mirroring the repository's own test case "ordinary page
without lookahead": limit 2, previous offset 4, two rows returned. -/
theorem NextPagePseudoCursor_spec_witness :
    NextPagePseudoCursor (T := Int)
      { lookahead := false, limit := 2, cursor := some { offset := 4 },
        sort := [{ Column := "id", Direction := "ASC" }] }
      [10, 20] = some (.ok ([10, 20], some { offset := 6 })) := by
  have h := NextPagePseudoCursor_spec (T := Int)
    { lookahead := false, limit := 2, cursor := some { offset := 4 },
      sort := [{ Column := "id", Direction := "ASC" }] }
    [10, 20] rfl (fun hc => by simp at hc)
  rw [h]
  rfl

/-- C8 (amended): `ParseSort` accepts its input exactly when every raw
string, after trimming, splits on single spaces into exactly two tokens
whose first token maps to a non-empty column name; the second (direction)
token is not validated by `ParseSort` at all. -/
theorem ParseSort_ok_iff (strs : List String) (m : ColumnMapping) :
    (∃ r, ParseSort strs m = .ok r) ↔
      ∀ s ∈ strs,
        ((goSplitSpace (goTrimSpace s)).length = 2 ∧
         lookupColumn m ((goSplitSpace (goTrimSpace s)).headD "") ≠ "") := by
  induction strs with
  | nil => simp [ParseSort]
  | cons s rest ih =>
    rw [ParseSort]
    by_cases h2 : (goSplitSpace (goTrimSpace s)).length = 2
    · rw [if_neg (by omega)]
      by_cases hcol : lookupColumn m ((goSplitSpace (goTrimSpace s)).headD "") = ""
      · rw [if_pos hcol]
        constructor
        · rintro ⟨r, hr⟩
          simp at hr
        · intro hall
          exact absurd hcol (hall s (by simp)).2
      · rw [if_neg hcol]
        cases hrec : ParseSort rest m with
        | error e =>
          simp only [hrec]
          constructor
          · rintro ⟨r, hr⟩
            simp at hr
          · intro hall
            obtain ⟨r, hr⟩ := ih.mpr (fun x hx => hall x (by simp [hx]))
            rw [hrec] at hr
            simp at hr
        | ok tail =>
          simp only [hrec]
          constructor
          · intro _ x hx
            rcases List.mem_cons.mp hx with hxs | hxr
            · subst hxs
              exact ⟨h2, hcol⟩
            · exact (ih.mp ⟨tail, hrec⟩) x hxr
          · intro _
            exact ⟨_, rfl⟩
    · rw [if_pos h2]
      constructor
      · rintro ⟨r, hr⟩
        simp at hr
      · intro hall
        exact absurd (hall s (by simp)).1 h2

/-- Witness for C8's amended acceptance condition at a concrete well-formed
sort string. -/
theorem ParseSort_ok_iff_witness :
    ∃ r, ParseSort ["id asc"] [("id", "t.id")] = .ok r := by
  apply (ParseSort_ok_iff ["id asc"] [("id", "t.id")]).mpr
  intro s hs
  rw [List.mem_singleton] at hs
  subst hs
  exact ⟨rfl, by decide⟩

/-- Counterexample to C8 as stated: a raw string whose second token is
neither ASC nor DESC is accepted by `ParseSort`, which stores the uppercased
token as the direction; direction validity is only checked later by
`Orderings.validate`. -/
theorem ParseSort_accepts_invalid_direction :
    ParseSort ["id up"] [("id", "t.id")] = .ok [{ Column := "t.id", Direction := "UP" }] ∧
    Direction.Valid "UP" = false ∧
    Orderings.validate [{ Column := "t.id", Direction := "UP" }] =
      .error (.invalidDirection "UP") := by
  exact ⟨rfl, rfl, rfl⟩

/-- Unmarshaling a marshaled element recovers it up to the JSON re-encoding
of its dynamic value. -/
theorem unmarshalElement_marshal (e : CursorElement) :
    unmarshalElement (CursorElement.marshal e) =
      some { Column := e.Column, Value := e.Value.jsonReencoded, Operator := e.Operator } := by
  have hv : e.Value.toJson.toGoValue = e.Value.jsonReencoded := by
    cases e.Value <;> rfl
  simp [unmarshalElement, CursorElement.marshal, jsonField, jsonToGoString, hv,
    List.find?]

theorem unmarshalElements_marshal (es : List CursorElement) :
    unmarshalElements (es.map CursorElement.marshal) =
      some (es.map (fun e =>
        { Column := e.Column, Value := e.Value.jsonReencoded, Operator := e.Operator })) := by
  induction es with
  | nil => rfl
  | cons e rest ih =>
    simp [unmarshalElements, unmarshalElement_marshal, ih]

theorem map_jsonReencoded_eq_self (es : List CursorElement)
    (hs : ∀ e ∈ es, e.Value.jsonStable = true) :
    es.map (fun e =>
      { Column := e.Column, Value := e.Value.jsonReencoded, Operator := e.Operator }) = es := by
  induction es with
  | nil => rfl
  | cons e rest ih =>
    have he : e.Value.jsonReencoded = e.Value := by
      have := hs e (by simp)
      cases hv : e.Value <;> simp_all [GoValue.jsonStable, GoValue.jsonReencoded]
    simp only [List.map_cons, he, ih (fun x hx => hs x (by simp [hx]))]

/-- C3 (amended): a keyset cursor built from a non-empty element list whose
values are JSON-stable Go types (string, bool, float64, null — everything
except `int`) round-trips exactly through `String()` and `DecodeCursor`,
preserving order, columns, values and operators; a cursor with an empty
element list serializes to the empty string. -/
theorem defaultCursor_roundtrip (c : DefaultCursor) (h : c.elements ≠ [])
    (hs : ∀ e ∈ c.elements, e.Value.jsonStable = true) :
    DecodeCursor (DefaultCursor.string c) = .ok (some c) ∧
    DefaultCursor.string { elements := [] } = none := by
  refine ⟨?_, rfl⟩
  rw [DefaultCursor.string, if_neg (by simp [List.isEmpty_iff, h])]
  simp only [DecodeCursor, unmarshalElements_marshal, map_jsonReencoded_eq_self _ hs]

/-- Witness for C3 at a concrete cursor with a string value. -/
theorem defaultCursor_roundtrip_witness :
    DecodeCursor (DefaultCursor.string
      { elements := [{ Column := "name", Value := .vStr "abc", Operator := "<" }] }) =
      .ok (some { elements := [{ Column := "name", Value := .vStr "abc", Operator := "<" }] }) :=
  (defaultCursor_roundtrip
    { elements := [{ Column := "name", Value := .vStr "abc", Operator := "<" }] }
    (by simp)
    (by intro e he; rw [List.mem_singleton] at he; subst he; rfl)).1

/-- Counterexample to C3 as stated: an element whose value is a Go `int`
does not round-trip to an equal element — `json.Unmarshal` into `any`
returns every JSON number as `float64`, so the decoded element list differs
from the original (Go interface equality distinguishes `int 1` from
`float64 1`); the repository's own round-trip test compares re-serialized
strings, not elements, for this reason. -/
theorem defaultCursor_roundtrip_int_changes :
    DecodeCursor (DefaultCursor.string
      { elements := [{ Column := "id", Value := .vInt 1, Operator := ">" }] }) =
      .ok (some { elements := [{ Column := "id", Value := .vNum 1, Operator := ">" }] }) ∧
    ({ Column := "id", Value := GoValue.vInt 1, Operator := ">" } : CursorElement) ≠
      { Column := "id", Value := GoValue.vNum 1, Operator := ">" } := by
  exact ⟨rfl, by decide⟩
